import Mathlib

/-!
Shallow embedding of the logly-rs logging library (src/src/*.rs) used to
check the natural-language specification against the code.

Conventions of the embedding:
* machine integers (`u8`, `u64`, `usize`, `u32`) are modelled as `Nat`
  (none of the verified operations can overflow in the scenarios stated);
* `HashMap` values whose claims concern lookup/insert/remove are modelled
  as association lists with unique keys;
* fallible Rust functions returning `Result<T, LoglyError>` are modelled
  as `Except LoglyError T`;
* wall-clock instants (`DateTime<Utc>`, `SystemTime`) are abstract `Nat`
  timestamps passed explicitly;
* best-effort side effects of `Logger::log` that cannot change its result
  or the records delivered to sinks (the debug self-trace, log callbacks,
  the GPU mirror) are elided; the sink fan-out, gating, and the exception
  routing policy are modelled faithfully.
-/

namespace Logly

/-- The eight standard levels of `src/src/level.rs` (`enum Level`). -/
inductive Level where
  | trace
  | debug
  | info
  | success
  | warning
  | error
  | fail
  | critical
deriving DecidableEq, Repr

/-- `Level::priority` / the discriminant values `Trace=5 .. Critical=50`. -/
def Level.priority : Level → Nat
  | .trace => 5
  | .debug => 10
  | .info => 20
  | .success => 25
  | .warning => 30
  | .error => 40
  | .fail => 45
  | .critical => 50

/-- `Level::as_str`. -/
def Level.asStr : Level → String
  | .trace => "TRACE"
  | .debug => "DEBUG"
  | .info => "INFO"
  | .success => "SUCCESS"
  | .warning => "WARNING"
  | .error => "ERROR"
  | .fail => "FAIL"
  | .critical => "CRITICAL"

/-- `Level::all_levels`. -/
def Level.allLevels : List Level :=
  [.trace, .debug, .info, .success, .warning, .error, .fail, .critical]

/-- `Level::from_priority`: exact match on the eight standard
priorities (the Rust `match` on the `u8`, written as the equivalent
chain of equality tests). -/
def Level.fromPriority (p : Nat) : Option Level :=
  if p = 5 then some .trace
  else if p = 10 then some .debug
  else if p = 20 then some .info
  else if p = 25 then some .success
  else if p = 30 then some .warning
  else if p = 40 then some .error
  else if p = 45 then some .fail
  else if p = 50 then some .critical
  else none

/-- Serde variant name of a `Level` (unit enum variants serialize as the
variant identifier, e.g. `"Trace"`). -/
def Level.variantName : Level → String
  | .trace => "Trace"
  | .debug => "Debug"
  | .info => "Info"
  | .success => "Success"
  | .warning => "Warning"
  | .error => "Error"
  | .fail => "Fail"
  | .critical => "Critical"

/-- Serde deserialization of a `Level` from its variant name. -/
def Level.ofVariantName : String → Option Level
  | "Trace" => some .trace
  | "Debug" => some .debug
  | "Info" => some .info
  | "Success" => some .success
  | "Warning" => some .warning
  | "Error" => some .error
  | "Fail" => some .fail
  | "Critical" => some .critical
  | _ => none

/-- Modelled from the spec: "resolves the CustomLevel's priority to the
nearest standard Level".  The code has no such function; this definition
follows the spec's words (minimize the absolute distance between the
custom priority and a standard priority; on a tie prefer the lower
level).  It exists only to be compared against the code's actual
resolution rule in `Logger::log_custom`. -/
def specNearestStandardLevel (p : Nat) : Level :=
  let dist : Level → Nat := fun l => max l.priority p - min l.priority p
  (Level.allLevels.foldl
    (fun best l => if dist l < dist best then l else best)
    Level.trace)

/-- `CustomLevel` of `src/src/level.rs`. -/
structure CustomLevel where
  name : String
  priority : Nat
  color : String
deriving DecidableEq, Repr

/-- JSON values (`serde_json::Value`), with numbers restricted to the
integers (floating point does not translate to the embedding; none of
the verified properties depend on it). -/
inductive Json where
  | null
  | bool (b : Bool)
  | num (n : Int)
  | str (s : String)
  | arr (xs : List Json)
  | obj (kvs : List (String × Json))

/-- `LogRecord` of `src/src/record.rs`; `fields` is the `HashMap` of
structured fields as an association list. -/
structure LogRecord where
  timestamp : Nat
  level : Level
  message : String
  module : Option String
  function : Option String
  filename : Option String
  lineno : Option Nat
  fields : List (String × Json)

/-- `LogRecord::new`. -/
def LogRecord.new (now : Nat) (level : Level) (message : String) : LogRecord :=
  { timestamp := now
    level := level
    message := message
    module := none
    function := none
    filename := none
    lineno := none
    fields := [] }

/-- `LoglyError` of `src/src/error.rs` (the variants the verified
operations can produce). -/
inductive LoglyError where
  | io (msg : String)
  | serialization (msg : String)
  | invalidConfig (msg : String)
  | invalidLevel (name : String)
  | sinkNotFound (id : Nat)
  | channelSend
  | customLevelExists (name : String)
  | custom (msg : String)
deriving DecidableEq, Repr

/-- `Filter` of `src/src/filter.rs`. -/
structure Filter where
  min_level : Option Level
  module : Option String
  function : Option String

/-- `Filter::new`. -/
def Filter.new (minLevel : Option Level) (module : Option String)
    (function : Option String) : Filter :=
  { min_level := minLevel, module := module, function := function }

/-- The function-name criterion of `Filter::matches` (third guard). -/
def Filter.matchesFunctionCriterion (f : Filter) (r : LogRecord) : Bool :=
  match f.function with
  | some functionFilter =>
    match r.function with
    | some recordFunction => recordFunction == functionFilter
    | none => false
  | none => true

/-- The module-name criterion of `Filter::matches` (second guard). -/
def Filter.matchesModuleCriterion (f : Filter) (r : LogRecord) : Bool :=
  match f.module with
  | some moduleFilter =>
    match r.module with
    | some recordModule =>
      if recordModule ≠ moduleFilter then false
      else f.matchesFunctionCriterion r
    | none => false
  | none => f.matchesFunctionCriterion r

/-- `Filter::matches`: the sequence of early-return guards of
`src/src/filter.rs` lines 51-79. -/
def Filter.matches (f : Filter) (r : LogRecord) : Bool :=
  match f.min_level with
  | some minLevel =>
    if r.level.priority < minLevel.priority then false
    else f.matchesModuleCriterion r
  | none => f.matchesModuleCriterion r

/-- Key lookup in an association list (`HashMap::get` on a map with
unique keys). -/
def assocLookup (kvs : List (String × α)) (key : String) : Option α :=
  (kvs.find? (fun kv => kv.1 == key)).map (·.2)

/-- Key membership in an association list (`HashMap::contains_key`). -/
def assocContains (kvs : List (String × α)) (key : String) : Bool :=
  kvs.any (fun kv => kv.1 == key)

/-- `LoggerConfig` of `src/src/config.rs` (the fields the verified
operations read; the remaining fields are presentation toggles that the
claims never touch). -/
structure LoggerConfig where
  level : Level
  global_console_display : Bool
  global_file_storage : Bool
  custom_levels : List (String × CustomLevel)
  enable_exception_handling : Bool

/-- `LoggerConfig::default` restricted to the modelled fields. -/
def LoggerConfig.default : LoggerConfig :=
  { level := .info
    global_console_display := true
    global_file_storage := true
    custom_levels := []
    enable_exception_handling := true }

/-- `LoggerConfig::add_custom_level`: duplicate names are rejected with
`CustomLevelExists`, otherwise the level is inserted (insertion with a
fresh key appends one binding). -/
def LoggerConfig.addCustomLevel (cfg : LoggerConfig) (name : String)
    (priority : Nat) (color : String) : Except LoglyError LoggerConfig :=
  if assocContains cfg.custom_levels name then
    .error (.customLevelExists name)
  else
    .ok { cfg with
          custom_levels :=
            cfg.custom_levels ++ [(name, CustomLevel.mk name priority color)] }

/-- `LoggerConfig::get_custom_level`. -/
def LoggerConfig.getCustomLevel (cfg : LoggerConfig) (name : String) :
    Option CustomLevel :=
  assocLookup cfg.custom_levels name

/-- `LoggerConfig::remove_custom_level`. -/
def LoggerConfig.removeCustomLevel (cfg : LoggerConfig) (name : String) :
    Bool × LoggerConfig :=
  (assocContains cfg.custom_levels name,
   { cfg with custom_levels :=
       cfg.custom_levels.filter (fun kv => kv.1 ≠ name) })

/-! ### JSON serialization of a record (`Formatter::format`, JSON mode)

`Formatter::format` with `json = true` is `serde_json::to_string(record)`;
parsing a line back is `serde_json::from_str::<LogRecord>`.  The embedding
works at the JSON-value level (the concrete byte printing/reparsing of
`serde_json` is injective on values and is elided).  Serde derives for
`LogRecord`: struct → object keyed by field names, `DateTime<Utc>` →
timestamp scalar, unit enum variant → variant-name string, `Option` →
null / value, `HashMap` → object. -/

/-- Serde serialization of an optional string field. -/
def optStrToJson : Option String → Json
  | some s => .str s
  | none => .null

/-- Serde serialization of the optional line number. -/
def optNatToJson : Option Nat → Json
  | some n => .num (Int.ofNat n)
  | none => .null

/-- Serde serialization of a `LogRecord` (JSON formatter mode). -/
def recordToJson (r : LogRecord) : Json :=
  .obj
    [ ("timestamp", .num (Int.ofNat r.timestamp))
    , ("level", .str r.level.variantName)
    , ("message", .str r.message)
    , ("module", optStrToJson r.module)
    , ("function", optStrToJson r.function)
    , ("filename", optStrToJson r.filename)
    , ("lineno", optNatToJson r.lineno)
    , ("fields", .obj r.fields) ]

/-- Serde deserialization of an optional string field. -/
def optStrOfJson : Json → Option (Option String)
  | .str s => some (some s)
  | .null => some none
  | _ => none

/-- Serde deserialization of the optional line number. -/
def optNatOfJson : Json → Option (Option Nat)
  | .num (Int.ofNat n) => some (some n)
  | .null => some none
  | _ => none

/-- Serde deserialization of a `LogRecord` from a JSON value
(`serde_json::from_str` on a formatted line). -/
def recordOfJson : Json → Option LogRecord
  | .obj kvs => do
    let .num (Int.ofNat ts) ← assocLookup kvs "timestamp" | none
    let .str levelName ← assocLookup kvs "level" | none
    let level ← Level.ofVariantName levelName
    let .str message ← assocLookup kvs "message" | none
    let moduleJson ← assocLookup kvs "module"
    let module ← optStrOfJson moduleJson
    let functionJson ← assocLookup kvs "function"
    let function ← optStrOfJson functionJson
    let filenameJson ← assocLookup kvs "filename"
    let filename ← optStrOfJson filenameJson
    let linenoJson ← assocLookup kvs "lineno"
    let lineno ← optNatOfJson linenoJson
    let .obj fields ← assocLookup kvs "fields" | none
    some { timestamp := ts, level := level, message := message,
           module := module, function := function, filename := filename,
           lineno := lineno, fields := fields }
  | _ => none

/-! ### Rotation (`src/src/rotation.rs`)

A directory is a list of `(file name, modification time)` pairs; `rename`
keeps the modification time.  The two `Utc::now()` calls inside
`rotate` (one formatted into the archive name, one stored as the
last-rotation instant) are the explicit parameters `ts` (formatted
`YYYYMMDD_HHMMSS` string) and `now`. -/

/-- `RotationPolicy`. -/
inductive RotationPolicy where
  | size (maxBytes : Nat)
  | time (interval : String)
  | both (maxBytes : Nat) (interval : String)

/-- `RotationManager` (the `base_path` is carried as its stem and
extension, which is what `rotate` extracts from it). -/
structure RotationManager where
  stem : String
  ext : String
  policy : RotationPolicy
  retention : Option Nat
  current_size : Nat
  last_rotation : Nat

/-- `RotationManager::new`. -/
def RotationManager.new (stem ext : String) (policy : RotationPolicy)
    (retention : Option Nat) (now : Nat) : RotationManager :=
  { stem := stem, ext := ext, policy := policy, retention := retention
    current_size := 0, last_rotation := now }

/-- `RotationManager::should_rotate_by_time` with time in seconds:
`num_hours`, `num_days`, `num_weeks` are the elapsed seconds divided by
3600, 86400, 604800. -/
def RotationManager.shouldRotateByTime (m : RotationManager) (now : Nat)
    (interval : String) : Bool :=
  let elapsed := now - m.last_rotation
  match interval.toLower with
  | "hourly" => 1 ≤ elapsed / 3600
  | "daily" => 1 ≤ elapsed / 86400
  | "weekly" => 1 ≤ elapsed / 604800
  | "monthly" => 30 ≤ elapsed / 86400
  | "yearly" => 365 ≤ elapsed / 86400
  | _ => false

/-- `RotationManager::should_rotate`: `current_size + additional_size >=
max_size`, a time check, or their disjunction. -/
def RotationManager.shouldRotate (m : RotationManager) (now : Nat)
    (additionalSize : Nat) : Bool :=
  match m.policy with
  | .size maxSize => maxSize ≤ m.current_size + additionalSize
  | .time interval => m.shouldRotateByTime now interval
  | .both maxSize interval =>
    (maxSize ≤ m.current_size + additionalSize)
      || m.shouldRotateByTime now interval

/-- `RotationManager::update_size`. -/
def RotationManager.updateSize (m : RotationManager) (size : Nat) :
    RotationManager :=
  { m with current_size := m.current_size + size }

/-- The live file name `{stem}.{ext}`. -/
def liveName (stem ext : String) : String := stem ++ "." ++ ext

/-- The archive name `{stem}_{timestamp}.{ext}` built in `rotate`. -/
def rotatedName (stem ts ext : String) : String :=
  stem ++ "_" ++ ts ++ "." ++ ext

/-- `str::starts_with` on the character sequences of the strings. -/
def strStartsWith (s p : String) : Bool := p.toList.isPrefixOf s.toList

/-- `str::ends_with` on the character sequences of the strings. -/
def strEndsWith (s p : String) : Bool := p.toList.isSuffixOf s.toList

/-- The retention file listing predicate of `apply_retention`:
`name.starts_with(stem) && name.ends_with(extension)`. -/
def matchesStemExt (stem ext : String) (f : String × Nat) : Bool :=
  strStartsWith f.1 stem && strEndsWith f.1 ext

/-- The stable ascending sort by modification time
(`sort_by_key(|entry| entry.modified())`). -/
def sortByMtime (files : List (String × Nat)) : List (String × Nat) :=
  List.insertionSort (fun a b => a.2 ≤ b.2) files

/-- `RotationManager::apply_retention`: list the sibling files matching
the stem/extension, sort by modification time ascending, and when more
than `maxFiles` match delete the first `len - maxFiles` of the sorted
list.  Returns the directory after deletion and the deleted names. -/
def applyRetention (dir : List (String × Nat)) (stem ext : String)
    (maxFiles : Nat) : List (String × Nat) × List String :=
  let logFiles := dir.filter (matchesStemExt stem ext)
  let sorted := sortByMtime logFiles
  if maxFiles < logFiles.length then
    let deleted := (sorted.take (logFiles.length - maxFiles)).map (·.1)
    (dir.filter (fun f => !(deleted.contains f.1)), deleted)
  else
    (dir, [])

/-- The rename step of `rotate`: if the live file exists it is renamed to
the archive name (modification time preserved); otherwise the directory
is unchanged. -/
def renameLive (dir : List (String × Nat)) (live rotated : String) :
    List (String × Nat) :=
  dir.map (fun f => if f.1 = live then (rotated, f.2) else f)

/-- `RotationManager::rotate`: rename the live file to
`{stem}_{ts}.{ext}`, reset the byte counter to 0 and the last-rotation
instant to `now`, then apply retention when configured.  Returns the
updated manager, the directory after the rotation, the deleted file
names, and the archive path. -/
def RotationManager.rotate (m : RotationManager)
    (dir : List (String × Nat)) (now : Nat) (ts : String) :
    RotationManager × List (String × Nat) × List String × String :=
  let rotated := rotatedName m.stem ts m.ext
  let live := liveName m.stem m.ext
  let dir1 := renameLive dir live rotated
  let m1 := { m with current_size := 0, last_rotation := now }
  match m.retention with
  | some maxFiles =>
    (m1, (applyRetention dir1 m.stem m.ext maxFiles).1,
     (applyRetention dir1 m.stem m.ext maxFiles).2, rotated)
  | none => (m1, dir1, [], rotated)

/-! ### Sink file writes (`Sink::log`, `src/src/sink.rs` lines 242-298)

For a file sink that passed the enabled/filter/global-storage guards the
write path is: `should_rotate(data_size)` against the counter *before*
any update; on rotation `rotate()` archives the live file and resets the
counter, and the file is reopened fresh; then `update_size(data_size)`;
then the formatted record is written to the (possibly fresh) live file.
The state tracks the live file's records and the archived files'
records; retention deletion of old archives is modelled in
`RotationManager.rotate` above and elided here. -/

/-- File-sink state: rotation manager, records in the live file, and the
records of each archived file in rotation order. -/
structure SinkFileState where
  rot : RotationManager
  live : List String
  archives : List (List String)

/-- One accepted record's write in `Sink::log` (file path present,
storage enabled, filter passed): `formatted.len()` is the record's byte
size. -/
def sinkFileWrite (st : SinkFileState) (now : Nat) (formatted : String) :
    SinkFileState :=
  let dataSize := formatted.length
  if st.rot.shouldRotate now dataSize then
    let rotAfter :=
      ({ st.rot with current_size := 0, last_rotation := now
       } : RotationManager).updateSize dataSize
    { rot := rotAfter
      live := [formatted]
      archives := st.archives ++ [st.live] }
  else
    { rot := st.rot.updateSize dataSize
      live := st.live ++ [formatted]
      archives := st.archives }

/-! ### Logger dispatch (`src/src/logger.rs`)

`Logger::log` gates, then fans the record out to every sink.  A sink's
write outcome is modelled as `Option LoglyError` (`none` = `Ok(())`).
The result of a `log` call is the returned `Result` together with the
observable delivery: the ids of the sinks whose `Sink::log` was invoked
(in fan-out order) and the error messages routed to the exception
callbacks by `Logger::handle_exception`. -/

/-- `Display for LoglyError` (the `thiserror` format strings). -/
def LoglyError.display : LoglyError → String
  | .io m => "IO error: " ++ m
  | .serialization m => "Serialization error: " ++ m
  | .invalidConfig m => "Invalid configuration: " ++ m
  | .invalidLevel n => "Invalid log level: " ++ n
  | .sinkNotFound id => "Sink not found: " ++ toString id
  | .channelSend => "Channel send error"
  | .customLevelExists n => "Custom level already exists: " ++ n
  | .custom m => m

/-- The sink fan-out loop of `Logger::log` (lines 289-299): on a sink
failure, with exception handling enabled the message
`"Sink error: {e}"` goes to `handle_exception` and the loop continues;
with it disabled the error is returned at once and no further sink is
visited.  Returns (sink ids that received the record, exception messages
routed to the callbacks, the overall result). -/
def fanOutSinks (excHandling : Bool) :
    List (Nat × Option LoglyError) →
      List Nat × List String × Except LoglyError Unit
  | [] => ([], [], .ok ())
  | (id, outcome) :: rest =>
    match outcome with
    | none =>
      let (visited, routed, res) := fanOutSinks excHandling rest
      (id :: visited, routed, res)
    | some e =>
      if excHandling then
        let (visited, routed, res) := fanOutSinks excHandling rest
        (id :: visited, ("Sink error: " ++ e.display) :: routed, res)
      else
        ([id], [], .error e)

/-- `Logger::log` (lines 226-302): gate 1 — disabled logger; gate 2 —
level strictly below the configured minimum (the `Ord` on `Level`
compares the `u8` priorities); gate 3 — global console and storage both
off; otherwise fan out to every sink.  The debug self-trace, log
callbacks and GPU mirror between the gates and the fan-out cannot
change the result or the sink deliveries and are elided. -/
def loggerLog (enabled : Bool) (cfg : LoggerConfig)
    (sinks : List (Nat × Option LoglyError)) (level : Level)
    (message : String) : Except LoglyError Unit × List Nat × List String :=
  if !enabled then (.ok (), [], [])
  else if level.priority < cfg.level.priority then (.ok (), [], [])
  else if !cfg.global_console_display && !cfg.global_file_storage then
    (.ok (), [], [])
  else
    let (visited, routed, res) :=
      fanOutSinks cfg.enable_exception_handling sinks
    (res, visited, routed)

/-- The priority-resolution step of `Logger::log_custom`:
`Level::from_priority(priority).unwrap_or(Level::Info)`. -/
def resolveCustomPriority (priority : Nat) : Level :=
  (Level.fromPriority priority).getD .info

/-- `Logger::log_custom` (lines 304-316): look the name up among the
registered custom levels; resolve its priority and defer to `log`;
unknown name returns `InvalidLevel(name)`. -/
def logCustom (enabled : Bool) (cfg : LoggerConfig)
    (sinks : List (Nat × Option LoglyError)) (levelName : String)
    (message : String) : Except LoglyError Unit × List Nat × List String :=
  match cfg.getCustomLevel levelName with
  | some customLevel =>
    loggerLog enabled cfg sinks (resolveCustomPriority customLevel.priority)
      message
  | none => (.error (.invalidLevel levelName), [], [])

/-! ### The sink registry (`Logger::remove_sink`)

The registry `sinks: HashMap<usize, Arc<Sink>>` is an association list
with unique keys (ids are allocated monotonically and never recycled);
the payload type is abstract.  `remove_sink` is `remove(&id).is_some()`. -/

/-- The `Logger` state the sink-registry operations touch. -/
structure LoggerState (σ : Type) where
  sinks : List (Nat × σ)
  bound_fields : List (String × Json)
  config : LoggerConfig

/-- Registry lookup by sink id. -/
def lookupSink (st : LoggerState σ) (id : Nat) : Option σ :=
  (st.sinks.find? (fun s => s.1 == id)).map (·.2)

/-- `Logger::remove_sink`: remove the entry for `id`, returning whether
one was present. -/
def removeSink (st : LoggerState σ) (id : Nat) : Bool × LoggerState σ :=
  (st.sinks.any (fun s => s.1 == id),
   { st with sinks := st.sinks.filter (fun s => s.1 ≠ id) })

/-! ## Theorems -/

/-- C5: `Filter.matches(record)` returns true iff every configured
criterion holds conjunctively: the record's level is ≥ the configured
minimum, and each configured module/function name is exactly
string-equal to the record's corresponding provenance field; if a
criterion is configured but the record lacks that provenance field,
`matches` returns false (fail closed). -/
theorem filter_matches_iff (f : Filter) (r : LogRecord) :
    f.matches r = true ↔
      ((∀ m, f.min_level = some m → m.priority ≤ r.level.priority) ∧
       (∀ s, f.module = some s → r.module = some s) ∧
       (∀ s, f.function = some s → r.function = some s)) := by
  obtain ⟨minL, fmod, ffn⟩ := f
  simp only [Filter.matches, Filter.matchesModuleCriterion,
    Filter.matchesFunctionCriterion]
  cases minL <;> cases fmod <;> cases ffn <;>
    cases hm : r.module <;> cases hf : r.function <;>
      simp [hm, hf, Nat.not_lt]

/-- C4: a logger whose configured minimum level has a strictly greater
priority than the call's level produces no output and returns success;
likewise a disabled logger, or one with the global console and storage
toggles both off, returns success without delivering to any sink or
routing any exception. -/
theorem logger_log_noop_gates (cfg : LoggerConfig)
    (sinks : List (Nat × Option LoglyError)) (l1 l2 lvl : Level)
    (msg msg2 msg3 : String) :
    (l1.priority < l2.priority → cfg.level = l2 →
      loggerLog true cfg sinks l1 msg = (.ok (), [], [])) ∧
    (loggerLog false cfg sinks lvl msg2 = (.ok (), [], [])) ∧
    (cfg.global_console_display = false → cfg.global_file_storage = false →
      loggerLog true cfg sinks lvl msg3 = (.ok (), [], [])) := by
  refine ⟨fun hlt hcfg => ?_, ?_, fun hc hs => ?_⟩
  · simp [loggerLog, hcfg, hlt]
  · simp [loggerLog]
  · simp [loggerLog, hc, hs]

/-- C4 witness: minimum `warning`, call at `info` (priority 20 < 30) is
a no-op success; so are the disabled-logger and both-toggles-off
gates. -/
theorem logger_log_noop_gates_witness :
    loggerLog true { LoggerConfig.default with level := .warning }
        [(1, none)] .info "a" = (.ok (), [], []) ∧
    loggerLog false LoggerConfig.default [(1, none)] .error "b" =
      (.ok (), [], []) ∧
    loggerLog true { LoggerConfig.default with
        global_console_display := false, global_file_storage := false }
        [(1, none)] .error "c" = (.ok (), [], []) :=
  ⟨(logger_log_noop_gates _ [(1, none)] .info .warning .info "a" "a" "a").1
      (by decide) rfl,
   (logger_log_noop_gates _ [(1, none)] .info .warning .error "b" "b" "b").2.1,
   (logger_log_noop_gates _ [(1, none)] .info .warning .error "c" "c" "c").2.2
      rfl rfl⟩

/-- C2: for a file sink with size limit `N`, a write rotates exactly
when the pre-update byte counter plus the record's formatted size
reaches or crosses `N` (the decision reads the counter before
`update_size`); the crossing write archives exactly the old live file
(one rotation) and the triggering record lands alone in the fresh live
file, with the counter holding just that record's size; a non-crossing
write archives nothing and appends to the live file. -/
theorem sink_size_rotation_boundary (st : SinkFileState) (now : Nat)
    (formatted : String) (maxBytes : Nat)
    (hpol : st.rot.policy = .size maxBytes) :
    (((sinkFileWrite st now formatted).archives.length
        = st.archives.length + 1) ↔
      maxBytes ≤ st.rot.current_size + formatted.length) ∧
    (maxBytes ≤ st.rot.current_size + formatted.length →
      (sinkFileWrite st now formatted).archives = st.archives ++ [st.live] ∧
      (sinkFileWrite st now formatted).live = [formatted] ∧
      (sinkFileWrite st now formatted).rot.current_size
        = formatted.length) ∧
    (st.rot.current_size + formatted.length < maxBytes →
      (sinkFileWrite st now formatted).archives = st.archives ∧
      (sinkFileWrite st now formatted).live = st.live ++ [formatted] ∧
      (sinkFileWrite st now formatted).rot.current_size
        = st.rot.current_size + formatted.length) := by
  simp only [sinkFileWrite, RotationManager.shouldRotate, hpol,
    RotationManager.updateSize]
  by_cases hcross : maxBytes ≤ st.rot.current_size + formatted.length
  · simp [hcross, Nat.not_lt.mpr hcross]
  · simp [hcross, Nat.lt_of_not_le hcross]

/-- C2 witness: limit 10, counter at 6, a 4-byte record (6 + 4 = 10
reaches the limit) triggers the rotation and lands in the fresh file. -/
theorem sink_size_rotation_boundary_witness :
    (sinkFileWrite
        { rot := { stem := "app", ext := "log", policy := .size 10,
                   retention := none, current_size := 6,
                   last_rotation := 0 },
          live := ["abc", "def"], archives := [] } 7 "wxyz").archives
      = [["abc", "def"]] ∧
    (sinkFileWrite
        { rot := { stem := "app", ext := "log", policy := .size 10,
                   retention := none, current_size := 6,
                   last_rotation := 0 },
          live := ["abc", "def"], archives := [] } 7 "wxyz").live
      = ["wxyz"] := by
  have h := (sink_size_rotation_boundary
    { rot := { stem := "app", ext := "log", policy := .size 10,
               retention := none, current_size := 6, last_rotation := 0 },
      live := ["abc", "def"], archives := [] } 7 "wxyz" 10 rfl).2.1
    (by decide)
  exact ⟨h.1, h.2.1⟩

/-- C3: during fan-out, with exception handling enabled every sink is
visited, every failure is routed (in order) to the exception callbacks
as `"Sink error: {e}"`, and the overall result is success; with it
disabled and all sinks succeeding, every sink is visited and the result
is success; with it disabled and a first failing sink, exactly the
sinks up to and including that one are visited, nothing is routed to
the exception callbacks, and that sink's error is returned. -/
theorem fanout_failure_policy (sinks : List (Nat × Option LoglyError)) :
    (fanOutSinks true sinks =
      (sinks.map (·.1),
       (sinks.filterMap (·.2)).map (fun e => "Sink error: " ++ e.display),
       .ok ())) ∧
    ((∀ s ∈ sinks, s.2 = none) →
      fanOutSinks false sinks = (sinks.map (·.1), [], .ok ())) ∧
    (∀ pre id e post, sinks = pre ++ (id, some e) :: post →
      (∀ s ∈ pre, s.2 = none) →
      fanOutSinks false sinks = (pre.map (·.1) ++ [id], [], .error e)) := by
  refine ⟨?_, ?_, ?_⟩
  · induction sinks with
    | nil => rfl
    | cons hd tl ih =>
      obtain ⟨id, outcome⟩ := hd
      cases outcome <;> simp [fanOutSinks, ih]
  · intro hall
    induction sinks with
    | nil => rfl
    | cons hd tl ih =>
      obtain ⟨id, outcome⟩ := hd
      have hhd : outcome = none := hall (id, outcome) (List.mem_cons_self _ _)
      subst hhd
      simp only [fanOutSinks]
      rw [ih (fun s hs => hall s (List.mem_cons_of_mem _ hs))]
      rfl
  · intro pre id e post hsplit hpre
    subst hsplit
    induction pre with
    | nil => rfl
    | cons hd tl ih =>
      obtain ⟨hid, houtcome⟩ := hd
      have hhd : houtcome = none :=
        hpre (hid, houtcome) (List.mem_cons_self _ _)
      subst hhd
      simp only [List.cons_append, fanOutSinks, List.append_eq]
      rw [ih (fun s hs => hpre s (List.mem_cons_of_mem _ hs))]
      rfl

/-- C3 witness: three sinks where the middle one fails with an I/O
error: resilient mode visits all three, routes the message, and
succeeds; fail-fast mode visits only sinks 1 and 2 and returns the
error. -/
theorem fanout_failure_policy_witness :
    fanOutSinks true [(1, none), (2, some (.io "disk full")), (3, none)] =
      ([1, 2, 3], ["Sink error: IO error: disk full"], .ok ()) ∧
    fanOutSinks false [(1, none), (2, some (.io "disk full")), (3, none)] =
      ([1, 2], [], .error (.io "disk full")) ∧
    fanOutSinks false [(1, none), (2, none), (3, none)] =
      ([1, 2, 3], [], .ok ()) := by
  refine ⟨?_, ?_, ?_⟩
  · exact (fanout_failure_policy
      [(1, none), (2, some (.io "disk full")), (3, none)]).1
  · have h := (fanout_failure_policy
      [(1, none), (2, some (.io "disk full")), (3, none)]).2.2
      [(1, none)] 2 (.io "disk full") [(3, none)] rfl
      (by intro s hs; simp at hs; simp [hs])
    simpa using h
  · exact (fanout_failure_policy [(1, none), (2, none), (3, none)]).2.1
      (by intro s hs; simp at hs; rcases hs with h | h | h <;> simp [h])

/-- An exact `from_priority` hit names a level with exactly that
priority. -/
theorem priority_of_fromPriority {p : Nat} {l : Level}
    (h : Level.fromPriority p = some l) : l.priority = p := by
  unfold Level.fromPriority at h
  split_ifs at h <;> (try (injection h with h; subst h)) <;>
    simp_all [Level.priority]

/-- The logger configuration of the C1 counterexample: minimum level
`warning`, a registered custom level `"NOTICE"` with priority 49. -/
def cfgNotice49 : LoggerConfig :=
  { LoggerConfig.default with
    level := .warning
    custom_levels := [("NOTICE", CustomLevel.mk "NOTICE" 49 "33")] }

/-- C1 counterexample: the code does not resolve a custom priority to
the *nearest* standard level.  The nearest standard level to priority
49 is `critical` (priority 50, distance 1), but
`Level::from_priority(49)` misses and `log_custom` falls back to
`info`; with minimum level `warning` the call is then gated to a no-op
while `log(critical, …)` would deliver to the sink — so `log_custom`
does not behave as `log` at the nearest standard level. -/
theorem log_custom_nearest_counterexample :
    specNearestStandardLevel 49 = Level.critical ∧
    resolveCustomPriority 49 = Level.info ∧
    logCustom true cfgNotice49 [(1, none)] "NOTICE" "m"
      ≠ loggerLog true cfgNotice49 [(1, none)]
          (specNearestStandardLevel 49) "m" ∧
    logCustom true cfgNotice49 [(1, none)] "NOTICE" "m" =
      (.ok (), [], []) ∧
    loggerLog true cfgNotice49 [(1, none)] Level.critical "m" =
      (.ok (), [1], []) :=
  ⟨rfl, rfl,
   fun h => absurd (congrArg (fun t => t.2.1) h) (by decide),
   rfl, rfl⟩

/-- C1 amended: `log_custom(name, message)` with a registered custom
level resolves its priority by *exact* match against the eight standard
priorities — yielding the unique standard level of equal priority when
one exists and falling back to `Info` otherwise — and then behaves
exactly as `log` at that resolved level; for a name with no registered
custom level it returns `InvalidLevel` identifying that name. -/
theorem log_custom_resolution (enabled : Bool) (cfg : LoggerConfig)
    (sinks : List (Nat × Option LoglyError)) (name message : String)
    (cl : CustomLevel) :
    (cfg.getCustomLevel name = some cl →
      logCustom enabled cfg sinks name message =
        loggerLog enabled cfg sinks (resolveCustomPriority cl.priority)
          message) ∧
    (∀ l : Level, l.priority = cl.priority →
      resolveCustomPriority cl.priority = l) ∧
    ((∀ l : Level, l.priority ≠ cl.priority) →
      resolveCustomPriority cl.priority = .info) ∧
    (cfg.getCustomLevel name = none →
      logCustom enabled cfg sinks name message =
        (.error (.invalidLevel name), [], [])) := by
  refine ⟨fun hfound => ?_, fun l hl => ?_, fun hmiss => ?_,
    fun hnone => ?_⟩
  · simp [logCustom, hfound]
  · rw [← hl]
    cases l <;> rfl
  · cases hfp : Level.fromPriority cl.priority with
    | none => simp [resolveCustomPriority, hfp]
    | some l => exact absurd (priority_of_fromPriority hfp) (hmiss l)
  · simp [logCustom, hnone]

/-- C1 amended witness: with `"NOTICE"` registered at priority 49 the
call defers to `log` at the fallback level `info`; priority 49 matches
no standard level; the unregistered name `"AUDIT"` errors naming
itself. -/
theorem log_custom_resolution_witness :
    logCustom true cfgNotice49 [(1, none)] "NOTICE" "m" =
      loggerLog true cfgNotice49 [(1, none)] (resolveCustomPriority 49)
        "m" ∧
    resolveCustomPriority 49 = .info ∧
    logCustom true cfgNotice49 [(1, none)] "AUDIT" "m" =
      (.error (.invalidLevel "AUDIT"), [], []) := by
  have h := log_custom_resolution true cfgNotice49 [(1, none)] "NOTICE"
    "m" (CustomLevel.mk "NOTICE" 49 "33")
  have h2 := log_custom_resolution true cfgNotice49 [(1, none)] "AUDIT"
    "m" (CustomLevel.mk "NOTICE" 49 "33")
  exact ⟨h.1 rfl,
    h.2.2.1 (by intro l; cases l <;> decide),
    h2.2.2.2 rfl⟩

/-- A key that looks up to nothing is not contained. -/
theorem assocContains_eq_false_of_lookup_none {kvs : List (String × α)}
    {k : String} (h : assocLookup kvs k = none) :
    assocContains kvs k = false := by
  unfold assocLookup at h
  unfold assocContains
  rw [Option.map_eq_none'] at h
  rw [List.find?_eq_none] at h
  simp only [List.any_eq_false]
  exact h

/-- Looking up the key of the binding appended behind bindings that
miss the key finds that binding. -/
theorem assocLookup_append_self {kvs : List (String × α)} {k : String}
    (h : assocLookup kvs k = none) (v : α) :
    assocLookup (kvs ++ [(k, v)]) k = some v := by
  unfold assocLookup at h ⊢
  rw [Option.map_eq_none'] at h
  rw [List.find?_append, h]
  simp

/-- C8: registering a custom level under a fresh name succeeds;
registering the same name again returns the duplicate-name error
`CustomLevelExists`, and the originally registered level — its priority
and its color — is still what the name looks up to (never silently
overwritten). -/
theorem add_custom_level_duplicate (cfg : LoggerConfig)
    (name : String) (priority : Nat) (color : String)
    (priority2 : Nat) (color2 : String)
    (h : cfg.getCustomLevel name = none) :
    ∃ cfg', cfg.addCustomLevel name priority color = .ok cfg' ∧
      cfg'.addCustomLevel name priority2 color2 =
        .error (.customLevelExists name) ∧
      cfg'.getCustomLevel name = some (CustomLevel.mk name priority color) := by
  have hc := assocContains_eq_false_of_lookup_none h
  refine ⟨{ cfg with custom_levels :=
      cfg.custom_levels ++ [(name, CustomLevel.mk name priority color)] },
    ?_, ?_, ?_⟩
  · simp [LoggerConfig.addCustomLevel, hc]
  · have hin : assocContains
        (cfg.custom_levels ++ [(name, CustomLevel.mk name priority color)])
        name = true := by
      unfold assocContains
      simp
    simp [LoggerConfig.addCustomLevel, hin]
  · exact assocLookup_append_self h _

/-- C8 witness: adding `"NOTICE"` to the default configuration succeeds
and a second registration with different priority and color is rejected
while the original binding survives. -/
theorem add_custom_level_duplicate_witness :
    ∃ cfg', LoggerConfig.default.addCustomLevel "NOTICE" 25 "33" =
        .ok cfg' ∧
      cfg'.addCustomLevel "NOTICE" 40 "31" =
        .error (.customLevelExists "NOTICE") ∧
      cfg'.getCustomLevel "NOTICE" =
        some (CustomLevel.mk "NOTICE" 25 "33") :=
  add_custom_level_duplicate LoggerConfig.default "NOTICE" 25 "33" 40 "31"
    rfl

/-- Registry lookup after `remove_sink` ignores entries whose key was
removed and is unchanged at every other key. -/
theorem find_filter_ne {σ : Type} (l : List (Nat × σ)) (id j : Nat)
    (hj : j ≠ id) :
    (l.filter (fun s => s.1 ≠ id)).find? (fun s => s.1 == j) =
      l.find? (fun s => s.1 == j) := by
  induction l with
  | nil => rfl
  | cons hd tl ih =>
    by_cases hid : hd.1 = id
    · rw [List.filter_cons_of_neg (by simp [hid]),
        List.find?_cons_of_neg _ (by simp [hid]; exact Ne.symm hj), ih]
    · rw [List.filter_cons_of_pos (by simp [hid])]
      by_cases hjj : hd.1 = j
      · rw [List.find?_cons_of_pos _ (by simp [hjj]),
          List.find?_cons_of_pos _ (by simp [hjj])]
      · rw [List.find?_cons_of_neg _ (by simp [hjj]),
          List.find?_cons_of_neg _ (by simp [hjj]), ih]

/-- C10: `remove_sink(id)` returns true exactly when a sink with that
id is registered; afterwards that id looks up to nothing while every
other id looks up to exactly what it did before, and the bound-fields
map and the configuration are untouched. -/
theorem remove_sink_spec {σ : Type} (st : LoggerState σ) (id : Nat) :
    ((removeSink st id).1 = true ↔ id ∈ st.sinks.map Prod.fst) ∧
    lookupSink (removeSink st id).2 id = none ∧
    (∀ j, j ≠ id →
      lookupSink (removeSink st id).2 j = lookupSink st j) ∧
    (removeSink st id).2.bound_fields = st.bound_fields ∧
    (removeSink st id).2.config = st.config := by
  refine ⟨?_, ?_, fun j hj => ?_, rfl, rfl⟩
  · simp only [removeSink, List.any_eq_true, List.mem_map]
    constructor
    · rintro ⟨s, hs, heq⟩
      exact ⟨s, hs, by simpa using heq.symm⟩
    · rintro ⟨s, hs, heq⟩
      exact ⟨s, hs, by simp [heq]⟩
  · simp only [removeSink, lookupSink]
    rw [List.find?_eq_none.mpr]
    · rfl
    · intro s hs
      have := (List.mem_filter.mp hs).2
      simpa using this
  · simp only [removeSink, lookupSink]
    rw [find_filter_ne _ _ _ hj]

/-- C9: formatting a record in JSON mode and parsing the line back
yields the record again — in particular an identical level, identical
message, and an identical set of structured fields. -/
theorem json_round_trip (r : LogRecord) :
    recordOfJson (recordToJson r) = some r := by
  obtain ⟨ts, lvl, msg, mo, fn, fi, ln, flds⟩ := r
  cases lvl <;> cases mo <;> cases fn <;> cases fi <;> cases ln <;> rfl

/-- The live file name and an archive name can never coincide (the
archive name is strictly longer). -/
theorem liveName_ne_rotatedName (stem ts ext : String) :
    liveName stem ext ≠ rotatedName stem ts ext := by
  intro h
  have hlen := congrArg String.length h
  have h1 : String.length "_" = 1 := rfl
  have h2 : String.length "." = 1 := rfl
  simp only [liveName, rotatedName, String.length_append, h1, h2] at hlen
  omega

/-- C7: `rotate()` leaves the byte counter at 0 and the last-rotation
instant at the rotation time, and the archive path it returns is
`{stem}_{timestamp}.{ext}`; when the live file exists it is renamed to
that archive name beside it (same directory listing) and no file under
the live name remains. -/
theorem rotate_resets_and_renames (m : RotationManager)
    (dir : List (String × Nat)) (now : Nat) (ts : String) (t : Nat) :
    ((m.rotate dir now ts).1.current_size = 0) ∧
    ((m.rotate dir now ts).1.last_rotation = now) ∧
    ((m.rotate dir now ts).2.2.2 = m.stem ++ "_" ++ ts ++ "." ++ m.ext) ∧
    (m.retention = none → (liveName m.stem m.ext, t) ∈ dir →
      (rotatedName m.stem ts m.ext, t) ∈ (m.rotate dir now ts).2.1 ∧
      liveName m.stem m.ext ∉ (m.rotate dir now ts).2.1.map Prod.fst) := by
  refine ⟨?_, ?_, ?_, fun hret hmem => ⟨?_, ?_⟩⟩
  · cases hr : m.retention <;> simp [RotationManager.rotate, hr]
  · cases hr : m.retention <;> simp [RotationManager.rotate, hr]
  · cases hr : m.retention <;> simp [RotationManager.rotate, hr, rotatedName]
  · simp only [RotationManager.rotate, hret, renameLive]
    exact List.mem_map.mpr ⟨(liveName m.stem m.ext, t), hmem, by simp⟩
  · simp only [RotationManager.rotate, hret, renameLive, List.map_map]
    intro hlive
    obtain ⟨f, _, hf⟩ := List.mem_map.mp hlive
    by_cases hfl : f.1 = liveName m.stem m.ext
    · simp [Function.comp, hfl] at hf
      exact liveName_ne_rotatedName m.stem ts m.ext hf.symm
    · simp [Function.comp, hfl] at hf

/-- C7 witness: rotating `app.log` (5 bytes already counted) at instant
9 renames it to `app_20250101_000000.log`, zeroes the counter, and
stamps the rotation instant. -/
theorem rotate_resets_and_renames_witness :
    (({ stem := "app", ext := "log", policy := .size 10,
        retention := none, current_size := 5,
        last_rotation := 2 } : RotationManager).rotate
      [("app.log", 7)] 9 "20250101_000000").1.current_size = 0 ∧
    (({ stem := "app", ext := "log", policy := .size 10,
        retention := none, current_size := 5,
        last_rotation := 2 } : RotationManager).rotate
      [("app.log", 7)] 9 "20250101_000000").1.last_rotation = 9 ∧
    ("app_20250101_000000.log", 7) ∈
      (({ stem := "app", ext := "log", policy := .size 10,
          retention := none, current_size := 5,
          last_rotation := 2 } : RotationManager).rotate
        [("app.log", 7)] 9 "20250101_000000").2.1 := by
  have h := rotate_resets_and_renames
    { stem := "app", ext := "log", policy := .size 10,
      retention := none, current_size := 5, last_rotation := 2 }
    [("app.log", 7)] 9 "20250101_000000" 7
  refine ⟨h.1, h.2.1, ?_⟩
  have h4 := h.2.2.2 rfl (by
    show ("app" ++ "." ++ "log", 7) ∈ [("app.log", 7)]
    simp)
  have : rotatedName "app" "20250101_000000" "log"
      = "app_20250101_000000.log" := rfl
  rw [← this]
  exact h4.1

/-- Splitting a list's length over a Boolean predicate. -/
theorem length_filter_add_length_filter_not (l : List α) (p : α → Bool) :
    (l.filter p).length + (l.filter (fun a => !p a)).length = l.length := by
  induction l with
  | nil => rfl
  | cons hd tl ih =>
    by_cases h : p hd <;> simp [List.filter_cons, h, ← ih] <;> omega

/-- The names after the rename step are the original names with the
live name replaced. -/
theorem map_fst_renameLive (dir : List (String × Nat))
    (live rotated : String) :
    (renameLive dir live rotated).map Prod.fst =
      (dir.map Prod.fst).map
        (fun s => if s = live then rotated else s) := by
  unfold renameLive
  rw [List.map_map, List.map_map]
  apply List.map_congr_left
  intro f _
  by_cases h : f.1 = live <;> simp [h]

/-- Replacing one name by a name fresh for the whole listing keeps the
names pairwise distinct. -/
theorem nodup_map_rename (names : List String) (live rotated : String)
    (hnd : names.Nodup) (hfresh : rotated ∉ names) :
    (names.map (fun s => if s = live then rotated else s)).Nodup := by
  induction names with
  | nil => simp
  | cons a as ih =>
    simp only [List.map_cons, List.nodup_cons] at hnd ⊢
    simp only [List.mem_cons, not_or] at hfresh
    refine ⟨?_, ih hnd.2 hfresh.2⟩
    intro hmem
    obtain ⟨b, hb, hbeq⟩ := List.mem_map.mp hmem
    by_cases ha : a = live <;> by_cases hbl : b = live <;>
      simp only [ha, hbl, if_pos, if_neg, ite_true, ite_false] at hbeq
    · exact hnd.1 (ha ▸ hbl ▸ hb)
    · exact hfresh.2 (hbeq ▸ hb)
    · exact hfresh.1 hbeq
    · exact hnd.1 (hbeq ▸ hb)

/-- The rename step preserves distinctness of the directory's names
when the archive name is fresh. -/
theorem nodup_renameLive (dir : List (String × Nat))
    (live rotated : String) (hnd : (dir.map Prod.fst).Nodup)
    (hfresh : rotated ∉ dir.map Prod.fst) :
    ((renameLive dir live rotated).map Prod.fst).Nodup := by
  rw [map_fst_renameLive]
  exact nodup_map_rename _ live rotated hnd hfresh

/-- After the rename step no file bears the live name any more. -/
theorem live_notin_renameLive (dir : List (String × Nat))
    (live rotated : String) (hne : live ≠ rotated) :
    live ∉ (renameLive dir live rotated).map Prod.fst := by
  unfold renameLive
  rw [List.map_map]
  intro hlive
  obtain ⟨f, _, hf⟩ := List.mem_map.mp hlive
  by_cases hfl : f.1 = live
  · simp [Function.comp, hfl] at hf
    exact hne hf.symm
  · simp [Function.comp, hfl] at hf

/-- Removing, from a directory listing with pairwise-distinct names,
the files whose name appears among the names of a sub-multiset `sub`
of the listing leaves exactly `length - sub.length` files. -/
theorem length_filter_not_names {fl sub : List (String × Nat)}
    (hnd : (fl.map Prod.fst).Nodup) (hsub : List.Subperm sub fl) :
    (fl.filter
      (fun f => !((sub.map Prod.fst).contains f.1))).length
      = fl.length - sub.length := by
  have hflnd : fl.Nodup := List.Nodup.of_map _ hnd
  have hsubnd : sub.Nodup := by
    obtain ⟨l, hlperm, hlsub⟩ := hsub
    exact hlperm.nodup_iff.mp (hflnd.sublist hlsub)
  have hA_le :
      (fl.filter (fun f => (sub.map Prod.fst).contains f.1)).length
        ≤ sub.length := by
    have hnodupA :
        ((fl.filter
          (fun f => (sub.map Prod.fst).contains f.1)).map Prod.fst).Nodup :=
      hnd.sublist ((List.filter_sublist fl).map Prod.fst)
    have hsubsetA :
        (fl.filter
          (fun f => (sub.map Prod.fst).contains f.1)).map Prod.fst
          ⊆ sub.map Prod.fst := by
      intro y hy
      obtain ⟨f, hf, rfl⟩ := List.mem_map.mp hy
      have := (List.mem_filter.mp hf).2
      simpa using this
    calc (fl.filter
          (fun f => (sub.map Prod.fst).contains f.1)).length
        = ((fl.filter
          (fun f => (sub.map Prod.fst).contains f.1)).map Prod.fst).length :=
          (List.length_map _ _).symm
      _ ≤ (sub.map Prod.fst).length :=
          (List.subperm_of_subset hnodupA hsubsetA).length_le
      _ = sub.length := List.length_map _ _
  have hA_ge : sub.length ≤
      (fl.filter (fun f => (sub.map Prod.fst).contains f.1)).length := by
    apply List.Subperm.length_le
    apply List.subperm_of_subset hsubnd
    intro x hx
    apply List.mem_filter.mpr
    refine ⟨hsub.subset hx, ?_⟩
    simpa using List.mem_map_of_mem Prod.fst hx
  have hsplit := length_filter_add_length_filter_not fl
    (fun f => (sub.map Prod.fst).contains f.1)
  have hsubfl := hsub.length_le
  omega

/-- What `apply_retention` does to a directory whose names are pairwise
distinct: the deleted files are exactly the first `matching - maxFiles`
of the matching files sorted by modification time ascending (none when
not in excess); exactly `min matching maxFiles` matching files remain;
and every deleted name was a name in the directory. -/
theorem applyRetention_spec (d : List (String × Nat)) (stem ext : String)
    (r : Nat) (hnd : (d.map Prod.fst).Nodup) :
    ((applyRetention d stem ext r).2 =
      if r < (d.filter (matchesStemExt stem ext)).length
      then ((sortByMtime (d.filter (matchesStemExt stem ext))).take
        ((d.filter (matchesStemExt stem ext)).length - r)).map Prod.fst
      else []) ∧
    (((applyRetention d stem ext r).1.filter
        (matchesStemExt stem ext)).length
      = min (d.filter (matchesStemExt stem ext)).length r) ∧
    (∀ x ∈ (applyRetention d stem ext r).2, x ∈ d.map Prod.fst) := by
  have hperm : List.Perm (sortByMtime (d.filter (matchesStemExt stem ext)))
      (d.filter (matchesStemExt stem ext)) :=
    List.perm_insertionSort _ _
  by_cases hov : r < (d.filter (matchesStemExt stem ext)).length
  · have htake : List.Subperm
        ((sortByMtime (d.filter (matchesStemExt stem ext))).take
          ((d.filter (matchesStemExt stem ext)).length - r))
        (d.filter (matchesStemExt stem ext)) :=
      (List.take_sublist _ _).subperm.trans hperm.subperm
    refine ⟨?_, ?_, ?_⟩
    · simp only [applyRetention, if_pos hov]
    · simp only [applyRetention, if_pos hov]
      have hcomm : (d.filter (fun f =>
          !((((sortByMtime (d.filter (matchesStemExt stem ext))).take
            ((d.filter (matchesStemExt stem ext)).length - r)).map
              (·.1)).contains f.1))).filter (matchesStemExt stem ext)
          = (d.filter (matchesStemExt stem ext)).filter (fun f =>
            !((((sortByMtime (d.filter (matchesStemExt stem ext))).take
              ((d.filter (matchesStemExt stem ext)).length - r)).map
                (·.1)).contains f.1)) := by
        rw [@List.filter_filter _ (matchesStemExt stem ext) _ d,
          List.filter_filter _ d]
        apply List.filter_congr
        intro x _
        exact Bool.and_comm _ _
      rw [hcomm]
      have hmatchnd :
          ((d.filter (matchesStemExt stem ext)).map Prod.fst).Nodup :=
        hnd.sublist ((List.filter_sublist d).map Prod.fst)
      have hcount := length_filter_not_names hmatchnd htake
      rw [List.length_take, hperm.length_eq] at hcount
      rw [hcount]
      omega
    · intro x hx
      simp only [applyRetention, if_pos hov] at hx
      obtain ⟨f, hf, rfl⟩ := List.mem_map.mp hx
      have hfin : f ∈ d.filter (matchesStemExt stem ext) :=
        hperm.mem_iff.mp (List.mem_of_mem_take hf)
      exact List.mem_map_of_mem Prod.fst
        (List.mem_of_mem_filter hfin)
  · refine ⟨?_, ?_, ?_⟩
    · simp only [applyRetention, if_neg hov]
    · simp only [applyRetention, if_neg hov]
      omega
    · intro x hx
      simp only [applyRetention, if_neg hov] at hx
      exact absurd hx (List.not_mem_nil x)

/-- C6: after a rotation with retention count `r` (directory names
pairwise distinct, archive timestamp name fresh), the deleted files are
exactly the oldest-by-modification-time files among the siblings
matching the live file's stem and extension in excess of `r` (taken
from the ascending stable sort); exactly `min matching r` — in
particular at most `r` — matching archives remain; and the live file's
name is never among the deleted files. -/
theorem rotate_retention_spec (m : RotationManager)
    (dir : List (String × Nat)) (now : Nat) (ts : String) (r : Nat)
    (hr : m.retention = some r)
    (hnd : (dir.map Prod.fst).Nodup)
    (hfresh : rotatedName m.stem ts m.ext ∉ dir.map Prod.fst) :
    ((m.rotate dir now ts).2.2.1 =
      if r < ((renameLive dir (liveName m.stem m.ext)
          (rotatedName m.stem ts m.ext)).filter
            (matchesStemExt m.stem m.ext)).length
      then ((sortByMtime ((renameLive dir (liveName m.stem m.ext)
          (rotatedName m.stem ts m.ext)).filter
            (matchesStemExt m.stem m.ext))).take
          (((renameLive dir (liveName m.stem m.ext)
            (rotatedName m.stem ts m.ext)).filter
              (matchesStemExt m.stem m.ext)).length - r)).map Prod.fst
      else []) ∧
    (((m.rotate dir now ts).2.1.filter
        (matchesStemExt m.stem m.ext)).length =
      min ((renameLive dir (liveName m.stem m.ext)
          (rotatedName m.stem ts m.ext)).filter
            (matchesStemExt m.stem m.ext)).length r) ∧
    liveName m.stem m.ext ∉ (m.rotate dir now ts).2.2.1 := by
  have hnd1 := nodup_renameLive dir (liveName m.stem m.ext)
    (rotatedName m.stem ts m.ext) hnd hfresh
  have h := applyRetention_spec
    (renameLive dir (liveName m.stem m.ext) (rotatedName m.stem ts m.ext))
    m.stem m.ext r hnd1
  have hrotdel : (m.rotate dir now ts).2.2.1 =
      (applyRetention (renameLive dir (liveName m.stem m.ext)
        (rotatedName m.stem ts m.ext)) m.stem m.ext r).2 := by
    simp [RotationManager.rotate, hr]
  have hrotdir : (m.rotate dir now ts).2.1 =
      (applyRetention (renameLive dir (liveName m.stem m.ext)
        (rotatedName m.stem ts m.ext)) m.stem m.ext r).1 := by
    simp [RotationManager.rotate, hr]
  refine ⟨?_, ?_, ?_⟩
  · rw [hrotdel]
    exact h.1
  · rw [hrotdir]
    exact h.2.1
  · rw [hrotdel]
    intro hx
    exact live_notin_renameLive dir (liveName m.stem m.ext)
      (rotatedName m.stem ts m.ext)
      (liveName_ne_rotatedName m.stem ts m.ext) (h.2.2 _ hx)

/-- C6 witness: retention 1 over a directory holding the live
`app.log` (modification time 10) and two archives of times 3 and 5:
rotating at timestamp `20250103_000000` deletes exactly the two oldest
archives, leaves one matching file, and does not delete `app.log`. -/
theorem rotate_retention_spec_witness :
    (({ stem := "app", ext := "log", policy := .size 10,
         retention := some 1, current_size := 9,
         last_rotation := 2 } : RotationManager).rotate
      [("app.log", 10), ("app_20250101_000000.log", 3),
       ("app_20250102_000000.log", 5)] 20 "20250103_000000").2.2.1 =
      ["app_20250101_000000.log", "app_20250102_000000.log"] ∧
    ((({ stem := "app", ext := "log", policy := .size 10,
          retention := some 1, current_size := 9,
          last_rotation := 2 } : RotationManager).rotate
      [("app.log", 10), ("app_20250101_000000.log", 3),
       ("app_20250102_000000.log", 5)] 20 "20250103_000000").2.1.filter
        (matchesStemExt "app" "log")).length = 1 ∧
    "app.log" ∉
      (({ stem := "app", ext := "log", policy := .size 10,
           retention := some 1, current_size := 9,
           last_rotation := 2 } : RotationManager).rotate
        [("app.log", 10), ("app_20250101_000000.log", 3),
         ("app_20250102_000000.log", 5)] 20 "20250103_000000").2.2.1 := by
  have h := rotate_retention_spec
    { stem := "app", ext := "log", policy := .size 10,
      retention := some 1, current_size := 9, last_rotation := 2 }
    [("app.log", 10), ("app_20250101_000000.log", 3),
     ("app_20250102_000000.log", 5)] 20 "20250103_000000" 1
    rfl (by decide) (by decide)
  refine ⟨h.1.trans (by decide), ?_, h.2.2⟩
  rw [h.2.1]
  decide

/-- C5 witness: a filter requiring at least `warning` from module
`"api"` accepts an `error` record from module `"api"`. -/
theorem filter_matches_iff_witness :
    (Filter.new (some .warning) (some "api") none).matches
      { timestamp := 0, level := .error, message := "m",
        module := some "api", function := none, filename := none,
        lineno := none, fields := [] } = true :=
  (filter_matches_iff (Filter.new (some .warning) (some "api") none)
    { timestamp := 0, level := .error, message := "m",
      module := some "api", function := none, filename := none,
      lineno := none, fields := [] }).mpr
    ⟨fun m hm => by injection hm with h; subst h; decide,
     fun s hs => by injection hs with h; subst h; rfl,
     fun s hs => Option.noConfusion hs⟩

/-- C9 witness: a concrete record with provenance and one structured
field survives the JSON round trip unchanged. -/
theorem json_round_trip_witness :
    recordOfJson (recordToJson
      { timestamp := 5, level := .info, message := "hello",
        module := some "api", function := none, filename := none,
        lineno := some 3, fields := [("k", Json.str "v")] }) =
      some { timestamp := 5, level := .info, message := "hello",
             module := some "api", function := none, filename := none,
             lineno := some 3, fields := [("k", Json.str "v")] } :=
  json_round_trip
    { timestamp := 5, level := .info, message := "hello",
      module := some "api", function := none, filename := none,
      lineno := some 3, fields := [("k", Json.str "v")] }

/-- C10 witness: removing sink 1 from a registry holding sinks 1 and 2
reports true, sink 1 is gone, and sink 2 still looks up to its
payload. -/
theorem remove_sink_spec_witness :
    (removeSink (LoggerState.mk [(1, "a"), (2, "b")] []
      LoggerConfig.default) 1).1 = true ∧
    lookupSink (removeSink (LoggerState.mk [(1, "a"), (2, "b")] []
      LoggerConfig.default) 1).2 1 = none ∧
    lookupSink (removeSink (LoggerState.mk [(1, "a"), (2, "b")] []
      LoggerConfig.default) 1).2 2 = some "b" :=
  ⟨(remove_sink_spec (LoggerState.mk [(1, "a"), (2, "b")] []
      LoggerConfig.default) 1).1.mpr (by decide),
   (remove_sink_spec (LoggerState.mk [(1, "a"), (2, "b")] []
      LoggerConfig.default) 1).2.1,
   ((remove_sink_spec (LoggerState.mk [(1, "a"), (2, "b")] []
      LoggerConfig.default) 1).2.2.1 2 (by decide)).trans rfl⟩

end Logly
